import Mathlib

/-!
Shallow embedding of the BirthdayDeals backend (`main.py`): the fixed-window
rate limiter `check_rate_limit`, the HTTP rate-limit middleware, and the route
handlers involved in the verified claims.  Wall-clock timestamps (Python's
`time.time()`) are modelled as rationals; the process-wide dict `_rate_store`
is modelled as an association list with at most one binding per key.
-/

namespace BirthdayDeals

/-- One rate-limit record, mirroring the dict `{"count": c, "reset": r}` stored
in `_rate_store` (`main.py` line 39).  `count` is the number of admitted
requests observed in the current window (always set to integral values by the
code, so modelled as `Nat`); `reset` is the absolute timestamp at which the
window ends. -/
structure Entry where
  count : Nat
  reset : ℚ
deriving DecidableEq, Repr

/-- The process-wide store `_rate_store : Dict[RateKey, ...]` (`main.py`
line 30), modelled as an association list. -/
abbrev RateStore := List (String × Entry)

/-- Python dict lookup `_rate_store.get(key)`. -/
def storeGet : RateStore → String → Option Entry
  | [], _ => none
  | (k, e) :: s, key => if k = key then some e else storeGet s key

/-- Python dict assignment `_rate_store[key] = e`: replaces the existing
binding for `key` if present, otherwise appends a new one. -/
def storeSet : RateStore → String → Entry → RateStore
  | [], key, e => [(key, e)]
  | (k, e₀) :: s, key, e =>
    if k = key then (key, e) :: s else (k, e₀) :: storeSet s key e

/-- Line 33: `ip = request.client.host if request.client else "unknown"`.
The request's resolved client identity, or the fixed sentinel when the
transport layer provides none. -/
def clientIp (client : Option String) : String :=
  match client with
  | some host => host
  | none => "unknown"

/-- Line 35: `key = f"{ip}:{path}:{window_seconds}"` — the composite
rate-limit key. -/
def rateKey (ip path : String) (windowSeconds : Nat) : String :=
  ip ++ ":" ++ path ++ ":" ++ toString windowSeconds

/-- Lines 32–47: `check_rate_limit(request, limit, window_seconds)`.
The request is represented by its resolvable client identity (`request.client`)
and its `request.url.path`; `now` is the value of `time.time()` at the call.
Returns the admission decision together with the updated store. -/
def check_rate_limit (client : Option String) (path : String)
    (limit windowSeconds : Nat) (now : ℚ) (store : RateStore) :
    Bool × RateStore :=
  let key := rateKey (clientIp client) path windowSeconds
  match storeGet store key with
  | none => (true, storeSet store key ⟨1, now + windowSeconds⟩)
  | some entry =>
    if entry.reset < now then
      (true, storeSet store key ⟨1, now + windowSeconds⟩)
    else if limit ≤ entry.count then
      (false, store)
    else
      (true, storeSet store key ⟨entry.count + 1, entry.reset⟩)

/-- A sequence of sequential `check_rate_limit` calls for one fixed
(client, path, limit, window) configuration, at the given list of timestamps,
threading the store through; returns the list of decisions and the final
store. -/
def admitSeq (client : Option String) (path : String)
    (limit windowSeconds : Nat) : List ℚ → RateStore → List Bool × RateStore
  | [], store => ([], store)
  | t :: ts, store =>
    let r := check_rate_limit client path limit windowSeconds t store
    let rest := admitSeq client path limit windowSeconds ts r.2
    (r.1 :: rest.1, rest.2)

/-- A JSON-like scalar value, covering the fields of the documents the banners
endpoint serves (`Banner` schema: strings, integers, booleans; the Mongo
`_id` is modelled by the string it prints to). -/
inductive JVal where
  | str : String → JVal
  | num : Int → JVal
  | bool : Bool → JVal
deriving DecidableEq, Repr

/-- A document from the external store: a Python dict with string keys,
modelled as an association list in insertion order. -/
abbrev Doc := List (String × JVal)

/-- Python dict lookup `d.get(k)` on a document. -/
def docGet : Doc → String → Option JVal
  | [], _ => none
  | (k, v) :: d, key => if k = key then some v else docGet d key

/-- Python `x.get("position", 0)`, as the integer sort key used by the
banners handler (`position` values are integers per the `Banner` schema). -/
def positionOf (d : Doc) : Int :=
  match docGet d "position" with
  | some (JVal.num n) => n
  | some _ => 0
  | none => 0

/-- Python `str(value)` applied to a document value. -/
def jvalStr : JVal → String
  | JVal.str s => s
  | JVal.num n => toString n
  | JVal.bool b => if b then "True" else "False"

/-- Python `d.pop(k)`'s effect on the dict: every binding except `k`, in
order. -/
def docRemove (d : Doc) (k : String) : Doc :=
  d.filter (fun p => !(p.1 == k))

/-- Lines 86–88: `if "_id" in d: d["id"] = str(d.pop("_id"))` — drop the
`_id` binding and append an `id` binding with its printed value. -/
def mapDocId (d : Doc) : Doc :=
  match docGet d "_id" with
  | some v => docRemove d "_id" ++ [("id", JVal.str (jvalStr v))]
  | none => d

/-- Lines 85–88: the banners handler's post-processing of the fetched
documents — stable ascending sort by `position` (default 0), then the
`_id`-to-`id` renaming. -/
def processBanners (docs : List Doc) : List Doc :=
  (docs.mergeSort fun a b => positionOf a ≤ positionOf b).map mapDocId

/-- One value of the `COUNTRIES` dict (lines 12–16). -/
structure Country where
  code : String
  name : String
deriving DecidableEq, Repr

/-- Lines 12–16: the `COUNTRIES` dict, in insertion order. -/
def COUNTRIES : List (String × Country) :=
  [("NL", ⟨"NL", "Nederland"⟩), ("AE", ⟨"AE", "Dubai"⟩), ("BH", ⟨"BH", "Bahrein"⟩)]

/-- Python `code in COUNTRIES` (dict key membership, line 82). -/
def countriesHas (code : String) : Bool :=
  COUNTRIES.any fun p => p.1 == code

/-- Python's `str.upper()` (line 81), applied characterwise to the string;
on the ASCII country codes this endpoint receives it coincides with Lean's
`String.toUpper`, but is defined structurally on the character list. -/
def upper (s : String) : String :=
  ⟨s.data.map Char.toUpper⟩

/-- The observable HTTP outcome of a handler or of the middleware: either a
success payload, or a short-circuit error response carrying a status code and
its JSON body (a dict, as built by `JSONResponse(...)` or rendered by FastAPI
from an `HTTPException`). -/
inductive Response (α : Type) where
  | success : α → Response α
  | failure : Nat → Doc → Response α
deriving DecidableEq, Repr

/-- Lines 49–54: the HTTP middleware — the coarse pass (limit 120 per 60 s)
run on every request before its handler; `call_next` is the downstream
continuation receiving the updated store. -/
def rate_limit_middleware {α : Type} (client : Option String) (path : String)
    (now : ℚ) (store : RateStore)
    (call_next : RateStore → Response α × RateStore) : Response α × RateStore :=
  let r := check_rate_limit client path 120 60 now store
  if r.1 then call_next r.2
  else (Response.failure 429 [("detail", JVal.str "Rate limit exceeded")], r.2)

/-- Lines 59–63: the `/` handler, whose handler-specific rate check uses
limit 5 per 1 s. -/
def read_root (client : Option String) (now : ℚ) (store : RateStore) :
    Response Doc × RateStore :=
  let r := check_rate_limit client "/" 5 1 now store
  if r.1 then
    (Response.success [("message", JVal.str "BirthdayDeals Backend Running")], r.2)
  else (Response.failure 429 [("detail", JVal.str "Rate limit exceeded")], r.2)

/-- Lines 65–69: the `/api/health` handler (limit 10 per 1 s); its body pairs
the status string with the countries list. -/
def health (client : Option String) (now : ℚ) (store : RateStore) :
    Response (String × List Country) × RateStore :=
  let r := check_rate_limit client "/api/health" 10 1 now store
  if r.1 then (Response.success ("ok", COUNTRIES.map Prod.snd), r.2)
  else (Response.failure 429 [("detail", JVal.str "Rate limit exceeded")], r.2)

/-- Lines 71–75: the `/api/countries` handler, including its handler-specific
rate check (limit 20 per 60 s). -/
def get_countries (client : Option String) (now : ℚ) (store : RateStore) :
    Response (List Country) × RateStore :=
  let r := check_rate_limit client "/api/countries" 20 60 now store
  if r.1 then (Response.success (COUNTRIES.map Prod.snd), r.2)
  else (Response.failure 429 [("detail", JVal.str "Rate limit exceeded")], r.2)

/-- Lines 77–89: the `/api/banners` handler (limit 60 per 60 s).  The
document-store collaborator `get_documents("banner", ...)` lives outside this
repository; the sequence of documents it returns for the request's filter is
passed in as `fetched`. -/
def get_banners (client : Option String) (country : String) (now : ℚ)
    (store : RateStore) (fetched : List Doc) : Response (List Doc) × RateStore :=
  let r := check_rate_limit client "/api/banners" 60 60 now store
  if r.1 then
    let code := upper country
    if countriesHas code = false then
      (Response.failure 400 [("detail", JVal.str "Unsupported country")], r.2)
    else
      (Response.success (processBanners fetched), r.2)
  else (Response.failure 429 [("detail", JVal.str "Rate limit exceeded")], r.2)

/-- Line 93: the rate check of the `/api/verify-recaptcha` handler (limit 30
per 60 s); the handler body past this check performs an outbound verification
call, external to the claims under study. -/
def verify_recaptcha_check (client : Option String) (now : ℚ)
    (store : RateStore) : Bool × RateStore :=
  check_rate_limit client "/api/verify-recaptcha" 30 60 now store

/-- Line 113: the rate check of the `/test` handler (limit 10 per 60 s); the
handler body past this check reports diagnostics, external to the claims
under study. -/
def test_database_check (client : Option String) (now : ℚ)
    (store : RateStore) : Bool × RateStore :=
  check_rate_limit client "/test" 10 60 now store

/-- The full pipeline for `GET /api/countries`: the coarse middleware pass,
then the handler with its own check. -/
def handle_countries (client : Option String) (now : ℚ) (store : RateStore) :
    Response (List Country) × RateStore :=
  rate_limit_middleware client "/api/countries" now store (get_countries client now)

/-- The decimal digit characters of `n`, most significant first (the list of
characters `Nat.repr n` is built from); used to reason about the
`window_seconds` component of the composite key. -/
def decDigits (n : Nat) : List Char :=
  if _h : n < 10 then [Nat.digitChar n]
  else decDigits (n / 10) ++ [Nat.digitChar (n % 10)]
termination_by n
decreasing_by exact Nat.div_lt_self (by omega) (by omega)

/-! ### Lemmas about the store -/

theorem storeGet_storeSet_self (s : RateStore) (k : String) (e : Entry) :
    storeGet (storeSet s k e) k = some e := by
  induction s with
  | nil => simp [storeSet, storeGet]
  | cons p s ih =>
    obtain ⟨k₀, e₀⟩ := p
    by_cases h : k₀ = k
    · simp [storeSet, storeGet, h]
    · simp [storeSet, storeGet, h, ih]

theorem storeGet_storeSet_ne (s : RateStore) (k k' : String) (e : Entry)
    (h : k ≠ k') : storeGet (storeSet s k e) k' = storeGet s k' := by
  induction s with
  | nil => simp [storeSet, storeGet, h]
  | cons p s ih =>
    obtain ⟨k₀, e₀⟩ := p
    by_cases hk : k₀ = k
    · subst hk; simp [storeSet, storeGet, h]
    · simp [storeSet, storeGet, hk, ih]

/-! ### Basic facts about a single `check_rate_limit` call -/

/-- Branch characterization: no entry for the key (lines 38–40). -/
theorem check_rate_limit_of_fresh (client : Option String) (path : String)
    (limit windowSeconds : Nat) (now : ℚ) (store : RateStore)
    (hget : storeGet store (rateKey (clientIp client) path windowSeconds) = none) :
    check_rate_limit client path limit windowSeconds now store =
      (true, storeSet store (rateKey (clientIp client) path windowSeconds)
        ⟨1, now + windowSeconds⟩) := by
  simp [check_rate_limit, hget]

/-- Branch characterization: entry present but its window expired
(lines 41–43). -/
theorem check_rate_limit_of_expired (client : Option String) (path : String)
    (limit windowSeconds : Nat) (now : ℚ) (store : RateStore) (e : Entry)
    (hget : storeGet store (rateKey (clientIp client) path windowSeconds) = some e)
    (hexp : e.reset < now) :
    check_rate_limit client path limit windowSeconds now store =
      (true, storeSet store (rateKey (clientIp client) path windowSeconds)
        ⟨1, now + windowSeconds⟩) := by
  simp [check_rate_limit, hget, hexp]

/-- Branch characterization: current window, count exhausted (lines 44–45). -/
theorem check_rate_limit_of_exhausted (client : Option String) (path : String)
    (limit windowSeconds : Nat) (now : ℚ) (store : RateStore) (e : Entry)
    (hget : storeGet store (rateKey (clientIp client) path windowSeconds) = some e)
    (hcur : ¬ e.reset < now) (hfull : limit ≤ e.count) :
    check_rate_limit client path limit windowSeconds now store = (false, store) := by
  simp [check_rate_limit, hget, hcur, hfull]

/-- Branch characterization: current window, count below the limit
(lines 46–47). -/
theorem check_rate_limit_of_increment (client : Option String) (path : String)
    (limit windowSeconds : Nat) (now : ℚ) (store : RateStore) (e : Entry)
    (hget : storeGet store (rateKey (clientIp client) path windowSeconds) = some e)
    (hcur : ¬ e.reset < now) (hroom : e.count < limit) :
    check_rate_limit client path limit windowSeconds now store =
      (true, storeSet store (rateKey (clientIp client) path windowSeconds)
        ⟨e.count + 1, e.reset⟩) := by
  simp [check_rate_limit, hget, hcur, Nat.not_le.mpr hroom]

/-- A rejected call leaves the store untouched (shared helper). -/
theorem check_rate_limit_false_frame (client : Option String) (path : String)
    (limit windowSeconds : Nat) (now : ℚ) (store : RateStore)
    (h : (check_rate_limit client path limit windowSeconds now store).1 = false) :
    (check_rate_limit client path limit windowSeconds now store).2 = store := by
  cases hget : storeGet store (rateKey (clientIp client) path windowSeconds) with
  | none =>
    rw [check_rate_limit_of_fresh client path limit windowSeconds now store hget] at h
    exact absurd h (by simp)
  | some e =>
    by_cases h1 : e.reset < now
    · rw [check_rate_limit_of_expired client path limit windowSeconds now store e
        hget h1] at h
      exact absurd h (by simp)
    · by_cases h2 : limit ≤ e.count
      · rw [check_rate_limit_of_exhausted client path limit windowSeconds now store e
          hget h1 h2]
      · rw [check_rate_limit_of_increment client path limit windowSeconds now store e
          hget h1 (Nat.lt_of_not_le h2)] at h
        exact absurd h (by simp)

/-- A call never touches any key other than its own composite key
(shared helper). -/
theorem check_rate_limit_other_key (client : Option String) (path : String)
    (limit windowSeconds : Nat) (now : ℚ) (store : RateStore) (k : String)
    (hk : k ≠ rateKey (clientIp client) path windowSeconds) :
    storeGet (check_rate_limit client path limit windowSeconds now store).2 k =
      storeGet store k := by
  cases hget : storeGet store (rateKey (clientIp client) path windowSeconds) with
  | none =>
    rw [check_rate_limit_of_fresh client path limit windowSeconds now store hget]
    exact storeGet_storeSet_ne _ _ _ _ (Ne.symm hk)
  | some e =>
    by_cases h1 : e.reset < now
    · rw [check_rate_limit_of_expired client path limit windowSeconds now store e
        hget h1]
      exact storeGet_storeSet_ne _ _ _ _ (Ne.symm hk)
    · by_cases h2 : limit ≤ e.count
      · rw [check_rate_limit_of_exhausted client path limit windowSeconds now store e
          hget h1 h2]
      · rw [check_rate_limit_of_increment client path limit windowSeconds now store e
          hget h1 (Nat.lt_of_not_le h2)]
        exact storeGet_storeSet_ne _ _ _ _ (Ne.symm hk)

/-! ### Claims C2, C5, C6 -/

/-- Claim C5: every `check_rate_limit` call that returns rejected leaves the
entry store completely unchanged — no count increment, no `resetAt` change,
and no entry created, removed, or replaced. -/
theorem C5_rejection_leaves_store_unchanged (client : Option String)
    (path : String) (limit windowSeconds : Nat) (now : ℚ) (store : RateStore)
    (h : (check_rate_limit client path limit windowSeconds now store).1 = false) :
    (check_rate_limit client path limit windowSeconds now store).2 = store :=
  check_rate_limit_false_frame client path limit windowSeconds now store h

/-- Witness for C5: with `limit = 1`, a second immediate call on the same key
is rejected, and the store after that call is exactly the store before it. -/
theorem C5_rejection_leaves_store_unchanged_witness :
    (check_rate_limit none "/" 1 1 0 [("unknown:/:1", ⟨1, 1⟩)]).1 = false ∧
    (check_rate_limit none "/" 1 1 0 [("unknown:/:1", ⟨1, 1⟩)]).2 =
      [("unknown:/:1", ⟨1, 1⟩)] :=
  ⟨by decide,
   C5_rejection_leaves_store_unchanged none "/" 1 1 0
     [("unknown:/:1", ⟨1, 1⟩)] (by decide)⟩

/-- Claim C6: for a key with no prior entry, a call returns admitted and
creates exactly one entry for that key, with `count = 1` and
`resetAt = now + windowSeconds`; every other key is untouched. -/
theorem C6_first_request_admission (client : Option String) (path : String)
    (limit windowSeconds : Nat) (now : ℚ) (store : RateStore)
    (hfresh : storeGet store (rateKey (clientIp client) path windowSeconds) = none) :
    (check_rate_limit client path limit windowSeconds now store).1 = true ∧
    storeGet (check_rate_limit client path limit windowSeconds now store).2
        (rateKey (clientIp client) path windowSeconds) =
      some ⟨1, now + windowSeconds⟩ ∧
    ∀ k, k ≠ rateKey (clientIp client) path windowSeconds →
      storeGet (check_rate_limit client path limit windowSeconds now store).2 k =
        storeGet store k := by
  refine ⟨?_, ?_, ?_⟩
  · unfold check_rate_limit; simp [hfresh]
  · unfold check_rate_limit; simpa [hfresh] using storeGet_storeSet_self _ _ _
  · intro k hk
    exact check_rate_limit_other_key client path limit windowSeconds now store k hk

/-- Witness for C6: the first-ever request (fresh empty store) is admitted and
creates the single entry `count = 1`, `resetAt = 0 + 60`. -/
theorem C6_first_request_admission_witness :
    (check_rate_limit (some "1.2.3.4") "/api/countries" 20 60 0 []).1 = true ∧
    storeGet (check_rate_limit (some "1.2.3.4") "/api/countries" 20 60 0 []).2
        (rateKey (clientIp (some "1.2.3.4")) "/api/countries" 60) =
      some ⟨1, 0 + 60⟩ ∧
    ∀ k, k ≠ rateKey (clientIp (some "1.2.3.4")) "/api/countries" 60 →
      storeGet (check_rate_limit (some "1.2.3.4") "/api/countries" 20 60 0 []).2 k =
        storeGet [] k :=
  C6_first_request_admission (some "1.2.3.4") "/api/countries" 20 60 0 [] (by decide)

/-- Claim C2: if an entry exists for the key and `now` is strictly past its
`resetAt`, the call is admitted and the entry is replaced wholesale by
`count = 1`, `resetAt = now + windowSeconds` (anchored to `now`), regardless
of the stored count (hence of how many rejections preceded expiry); every
other key is untouched. -/
theorem C2_expired_window_hard_reset (client : Option String) (path : String)
    (limit windowSeconds : Nat) (now : ℚ) (store : RateStore)
    (c : Nat) (r : ℚ)
    (hget : storeGet store (rateKey (clientIp client) path windowSeconds) =
      some ⟨c, r⟩)
    (hexp : r < now) :
    (check_rate_limit client path limit windowSeconds now store).1 = true ∧
    storeGet (check_rate_limit client path limit windowSeconds now store).2
        (rateKey (clientIp client) path windowSeconds) =
      some ⟨1, now + windowSeconds⟩ ∧
    ∀ k, k ≠ rateKey (clientIp client) path windowSeconds →
      storeGet (check_rate_limit client path limit windowSeconds now store).2 k =
        storeGet store k := by
  refine ⟨?_, ?_, ?_⟩
  · unfold check_rate_limit; simp [hget, hexp]
  · unfold check_rate_limit; simpa [hget, hexp] using storeGet_storeSet_self _ _ _
  · intro k hk
    exact check_rate_limit_other_key client path limit windowSeconds now store k hk

/-- Witness for C2: a key exhausted at `count = 7` with `resetAt = 1`, called
at `now = 2 > 1`, is admitted and reset to `count = 1`, `resetAt = 2 + 1`. -/
theorem C2_expired_window_hard_reset_witness :
    (check_rate_limit none "/" 2 1 2 [("unknown:/:1", ⟨7, 1⟩)]).1 = true ∧
    storeGet (check_rate_limit none "/" 2 1 2 [("unknown:/:1", ⟨7, 1⟩)]).2
        (rateKey (clientIp none) "/" 1) =
      some ⟨1, 2 + 1⟩ ∧
    ∀ k, k ≠ rateKey (clientIp none) "/" 1 →
      storeGet (check_rate_limit none "/" 2 1 2 [("unknown:/:1", ⟨7, 1⟩)]).2 k =
        storeGet [("unknown:/:1", ⟨7, 1⟩)] k :=
  C2_expired_window_hard_reset none "/" 2 1 2 [("unknown:/:1", ⟨7, 1⟩)]
    7 1 (by decide) (by decide)

/-! ### Claim C1: window exhaustion -/

/-- Shared helper: starting from an entry `⟨c, r⟩` for the key, a sequence of
calls whose timestamps all lie within the current window (each `t ≤ r`)
admits exactly the first `limit - c` calls and rejects the rest. -/
theorem admitSeq_in_window (client : Option String) (path : String)
    (limit windowSeconds : Nat) (r : ℚ) :
    ∀ (ts : List ℚ) (c : Nat) (store : RateStore),
      storeGet store (rateKey (clientIp client) path windowSeconds) = some ⟨c, r⟩ →
      (∀ t ∈ ts, t ≤ r) →
      (admitSeq client path limit windowSeconds ts store).1 =
        List.replicate (min ts.length (limit - c)) true ++
        List.replicate (ts.length - (limit - c)) false := by
  intro ts
  induction ts with
  | nil => intro c store _ _; simp [admitSeq]
  | cons t ts ih =>
    intro c store hget hts
    have hcur : ¬ (Entry.reset ⟨c, r⟩ < t) :=
      not_lt.mpr (hts t (List.mem_cons_self t ts))
    have hts' : ∀ u ∈ ts, u ≤ r := fun u hu => hts u (List.mem_cons_of_mem t hu)
    by_cases hfull : limit ≤ c
    · have hstep := check_rate_limit_of_exhausted client path limit windowSeconds
        t store ⟨c, r⟩ hget hcur hfull
      simp only [admitSeq, hstep]
      rw [ih c store hget hts']
      have h0 : limit - c = 0 := Nat.sub_eq_zero_of_le hfull
      simp [h0, List.replicate_succ]
    · have hroom : c < limit := Nat.lt_of_not_le hfull
      have hstep := check_rate_limit_of_increment client path limit windowSeconds
        t store ⟨c, r⟩ hget hcur hroom
      simp only [admitSeq, hstep]
      rw [ih (c + 1) _ (storeGet_storeSet_self _ _ _) hts']
      have h2 : min (ts.length + 1) (limit - c) =
          min ts.length (limit - (c + 1)) + 1 := by omega
      have h3 : ts.length + 1 - (limit - c) = ts.length - (limit - (c + 1)) := by
        omega
      simp only [List.length_cons, h2, h3, List.replicate_succ, List.cons_append]

/-- Claim C1: for every positive limit `N`, window `W` and fixed key, a
sequence of calls starting on a fresh key whose timestamps all fall within the
window opened by the first call (`t ≤ t₀ + W`, i.e. before `resetAt` passes)
has its first `N` calls admitted and every subsequent call rejected. -/
theorem C1_window_exhaustion (client : Option String) (path : String)
    (N W : Nat) (t₀ : ℚ) (ts : List ℚ) (store : RateStore)
    (hN : 0 < N)
    (hfresh : storeGet store (rateKey (clientIp client) path W) = none)
    (hwin : ∀ t ∈ ts, t ≤ t₀ + W) :
    (admitSeq client path N W (t₀ :: ts) store).1 =
      List.replicate (min (ts.length + 1) N) true ++
      List.replicate (ts.length + 1 - N) false := by
  have hfirst := check_rate_limit_of_fresh client path N W t₀ store hfresh
  simp only [admitSeq, hfirst]
  rw [admitSeq_in_window client path N W (t₀ + W) ts 1
    (storeSet store (rateKey (clientIp client) path W) ⟨1, t₀ + W⟩)
    (storeGet_storeSet_self _ _ _) hwin]
  have h2 : min (ts.length + 1) N = min ts.length (N - 1) + 1 := by omega
  have h3 : ts.length + 1 - N = ts.length - (N - 1) := by omega
  simp only [List.length_cons, h2, h3, List.replicate_succ, List.cons_append]

/-- Witness for C1: the spec's concrete scenario — `limit = 2`,
`windowSeconds = 1`, three immediate calls on a fresh key yield
`[true, true, false]`. -/
theorem C1_window_exhaustion_witness :
    (admitSeq none "/" 2 1 [0, 0, 0] []).1 = [true, true, false] := by
  have h := C1_window_exhaustion none "/" 2 1 0 [0, 0] [] (by decide) (by decide)
    (by
      intro t ht
      have ht0 : t = 0 := by simpa using ht
      subst ht0
      norm_num)
  rw [h]; decide

/-! ### Claim C9: the stored count never exceeds the limit -/

/-- Shared helper: one call with limit `L ≥ 1` preserves the invariant that
the key's stored count lies in `[1, L]` (and establishes it when absent). -/
theorem check_rate_limit_count_bounds (client : Option String) (path : String)
    (L windowSeconds : Nat) (now : ℚ) (store : RateStore)
    (hL : 0 < L)
    (hstore : ∀ e, storeGet store (rateKey (clientIp client) path windowSeconds) =
      some e → 1 ≤ e.count ∧ e.count ≤ L) :
    ∀ e, storeGet (check_rate_limit client path L windowSeconds now store).2
        (rateKey (clientIp client) path windowSeconds) = some e →
      1 ≤ e.count ∧ e.count ≤ L := by
  cases hget : storeGet store (rateKey (clientIp client) path windowSeconds) with
  | none =>
    rw [check_rate_limit_of_fresh client path L windowSeconds now store hget]
    intro e he
    rw [storeGet_storeSet_self] at he
    cases he
    exact ⟨le_refl 1, hL⟩
  | some e₀ =>
    by_cases h1 : e₀.reset < now
    · rw [check_rate_limit_of_expired client path L windowSeconds now store e₀
        hget h1]
      intro e he
      rw [storeGet_storeSet_self] at he
      cases he
      exact ⟨le_refl 1, hL⟩
    · by_cases h2 : L ≤ e₀.count
      · rw [check_rate_limit_of_exhausted client path L windowSeconds now store e₀
          hget h1 h2]
        exact hstore
      · rw [check_rate_limit_of_increment client path L windowSeconds now store e₀
          hget h1 (Nat.lt_of_not_le h2)]
        intro e he
        rw [storeGet_storeSet_self] at he
        cases he
        exact ⟨Nat.succ_le_succ (Nat.zero_le _), Nat.lt_of_not_le h2⟩

/-- Claim C9: if every call for the key uses one fixed positive limit `L`,
then after any sequence of calls the key's stored entry (whenever present)
has `1 ≤ count ≤ L`; in particular the count can never exceed `L`. -/
theorem C9_count_invariant (client : Option String) (path : String)
    (L W : Nat) (ts : List ℚ) (store : RateStore)
    (hL : 0 < L)
    (hstore : ∀ e, storeGet store (rateKey (clientIp client) path W) = some e →
      1 ≤ e.count ∧ e.count ≤ L) :
    ∀ e, storeGet (admitSeq client path L W ts store).2
        (rateKey (clientIp client) path W) = some e →
      1 ≤ e.count ∧ e.count ≤ L := by
  induction ts generalizing store with
  | nil => simpa [admitSeq] using hstore
  | cons t ts ih =>
    simp only [admitSeq]
    exact ih _ (check_rate_limit_count_bounds client path L W t store hL hstore)

/-- Witness for C9: a further call on a key already holding `⟨2, 1⟩` with
`limit = 2` keeps the stored entry at `⟨2, 1⟩`, satisfying `1 ≤ 2 ≤ 2`. -/
theorem C9_count_invariant_witness :
    1 ≤ Entry.count ⟨2, 1⟩ ∧ Entry.count ⟨2, 1⟩ ≤ 2 :=
  C9_count_invariant none "/" 2 1 [0] [("unknown:/:1", ⟨2, 1⟩)] (by decide)
    (by
      intro e he
      have h0 : storeGet [("unknown:/:1", ⟨2, 1⟩)] (rateKey (clientIp none) "/" 1) =
          some ⟨2, 1⟩ := by decide
      rw [h0] at he
      cases Option.some.inj he
      decide)
    ⟨2, 1⟩ (by decide)

/-! ### Claim C7: middleware short-circuit -/

/-- Claim C7: for every request and every downstream handler, when the coarse
limiter rejects, the pipeline returns HTTP 429 with the fixed JSON body
consisting of the single field `detail = "Rate limit exceeded"`, the store is
left unchanged, and the handler is never consulted (the result is the same
for every `call_next`); when the limiter admits, control passes to the
handler on the updated store. -/
theorem C7_middleware_short_circuit {α : Type} (client : Option String)
    (path : String) (now : ℚ) (store : RateStore)
    (call_next : RateStore → Response α × RateStore) :
    rate_limit_middleware client path now store call_next =
      if (check_rate_limit client path 120 60 now store).1 then
        call_next (check_rate_limit client path 120 60 now store).2
      else
        (Response.failure 429 [("detail", JVal.str "Rate limit exceeded")],
          store) := by
  by_cases h : (check_rate_limit client path 120 60 now store).1 = true
  · simp [rate_limit_middleware, h]
  · have h' : (check_rate_limit client path 120 60 now store).1 = false := by
      simpa using h
    have hframe := check_rate_limit_false_frame client path 120 60 now store h'
    simp [rate_limit_middleware, h', hframe]

/-! ### Claim C8: unresolvable clients share the sentinel counter -/

/-- Claim C8: when no client identity is resolvable, the limiter substitutes
the fixed sentinel `"unknown"` (so an unresolvable client is
indistinguishable from a client literally named `"unknown"`), and any two
such requests to the same route and window share one counter: with
`limit = 1` and a fresh key, the first unresolvable-client call is admitted
and a second unresolvable-client call inside the same window is rejected —
it hit the counter the first call created. -/
theorem C8_unknown_sentinel_shared_counter (path : String) (W : Nat)
    (now now' : ℚ) (store : RateStore)
    (hfresh : storeGet store (rateKey "unknown" path W) = none)
    (hwin : now' ≤ now + W) :
    clientIp none = "unknown" ∧
    (check_rate_limit none path 1 W now store =
      check_rate_limit (some "unknown") path 1 W now store) ∧
    (admitSeq none path 1 W [now, now'] store).1 = [true, false] := by
  refine ⟨rfl, rfl, ?_⟩
  have h1 := check_rate_limit_of_fresh none path 1 W now store hfresh
  have hget2 : storeGet
      (storeSet store (rateKey (clientIp none) path W) ⟨1, now + W⟩)
      (rateKey (clientIp none) path W) = some ⟨1, now + W⟩ :=
    storeGet_storeSet_self _ _ _
  have h2 := check_rate_limit_of_exhausted none path 1 W now'
    (storeSet store (rateKey (clientIp none) path W) ⟨1, now + W⟩) ⟨1, now + W⟩
    hget2 (not_lt.mpr hwin) (le_refl 1)
  simp only [admitSeq, h1, h2]

/-- Witness for C8: route `"/x"`, window 60, calls at times 0 and 3 on an
empty store. -/
theorem C8_unknown_sentinel_shared_counter_witness :
    clientIp none = "unknown" ∧
    (check_rate_limit none "/x" 1 60 0 [] =
      check_rate_limit (some "unknown") "/x" 1 60 0 []) ∧
    (admitSeq none "/x" 1 60 [0, 3] []).1 = [true, false] :=
  C8_unknown_sentinel_shared_counter "/x" 60 0 3 [] (by decide) (by norm_num)

/-! ### Claim C3: the two-tier passes do NOT always use distinct keys -/

/-- Shared helper: a fresh admitted request to `/api/countries` runs the
middleware pass (creating the entry at count 1) and then the handler pass,
which finds the SAME key and increments it to 2. -/
theorem handle_countries_fresh (client : Option String) (now : ℚ)
    (store : RateStore)
    (hfresh : storeGet store (rateKey (clientIp client) "/api/countries" 60) =
      none) :
    handle_countries client now store =
      (Response.success (COUNTRIES.map Prod.snd),
        storeSet
          (storeSet store (rateKey (clientIp client) "/api/countries" 60)
            ⟨1, now + 60⟩)
          (rateKey (clientIp client) "/api/countries" 60) ⟨2, now + 60⟩) := by
  have h1 := check_rate_limit_of_fresh client "/api/countries" 120 60 now store
    hfresh
  simp only [Nat.cast_ofNat] at h1
  have hget1 := storeGet_storeSet_self store
    (rateKey (clientIp client) "/api/countries" 60) ⟨1, now + 60⟩
  have hcur : ¬ (Entry.reset ⟨1, now + (60 : ℚ)⟩ < now) := by
    simp only [not_lt]
    exact le_add_of_nonneg_right (by norm_num)
  have h2 := check_rate_limit_of_increment client "/api/countries" 20 60 now
    (storeSet store (rateKey (clientIp client) "/api/countries" 60)
      ⟨1, now + 60⟩)
    ⟨1, now + 60⟩ hget1 hcur (by show (1 : Nat) < 20; norm_num)
  simp only [Nat.cast_ofNat] at h2
  simp [handle_countries, rate_limit_middleware, get_countries, h1, h2]

/-- Counterexample to claim C3 as stated: for the `/api/countries` route the
coarse middleware pass (window 60) and the handler pass (window 60) compute
the very same composite key, so the two passes do not track separate
counters there.  Concretely, one admitted fresh request leaves the store
with exactly ONE entry, whose count is 2 — the middleware and the handler
each incremented the same shared counter. -/
theorem C3_counterexample :
    (handle_countries (some "1.2.3.4") 0 []).1 =
      Response.success (COUNTRIES.map Prod.snd) ∧
    storeGet (handle_countries (some "1.2.3.4") 0 []).2
        (rateKey (clientIp (some "1.2.3.4")) "/api/countries" 60) =
      some ⟨2, 0 + 60⟩ ∧
    (handle_countries (some "1.2.3.4") 0 []).2.length = 1 := by
  rw [handle_countries_fresh (some "1.2.3.4") 0 [] (by decide)]
  refine ⟨rfl, ?_, ?_⟩
  · simpa using storeGet_storeSet_self _ _ _
  · simp [storeSet]

/-- Claim C3 (amended): the middleware pass and a route's handler pass use
distinct composite keys exactly when the handler's window differs from the
middleware's 60-second window.  For `/` and `/api/health` (handler windows of
1 s) the two keys differ, and the middleware's pass never touches the
handler's counter; but for `/api/countries` (handler window 60 s, as for
banners, recaptcha and test) both passes use one and the same key, and a
single admitted fresh request to `/api/countries` drives the one shared
counter to 2. -/
theorem C3_amended_two_tier_keys (client : Option String) (now : ℚ)
    (store : RateStore) :
    (rateKey (clientIp client) "/" 1 ≠ rateKey (clientIp client) "/" 60) ∧
    (rateKey (clientIp client) "/api/health" 1 ≠
      rateKey (clientIp client) "/api/health" 60) ∧
    (storeGet (check_rate_limit client "/" 120 60 now store).2
        (rateKey (clientIp client) "/" 1) =
      storeGet store (rateKey (clientIp client) "/" 1)) ∧
    (storeGet store (rateKey (clientIp client) "/api/countries" 60) = none →
      storeGet (handle_countries client now store).2
          (rateKey (clientIp client) "/api/countries" 60) =
        some ⟨2, now + 60⟩) := by
  have hlen : ∀ (ip p : String), rateKey ip p 1 ≠ rateKey ip p 60 := by
    intro ip p h
    have h2 := congrArg String.length h
    simp only [rateKey, String.length_append] at h2
    have e1 : (toString (1 : Nat)).length = 1 := by decide
    have e60 : (toString (60 : Nat)).length = 2 := by decide
    rw [e1, e60] at h2
    omega
  refine ⟨hlen _ _, hlen _ _, ?_, ?_⟩
  · exact check_rate_limit_other_key client "/" 120 60 now store _ (hlen _ _)
  · intro hfresh
    rw [handle_countries_fresh client now store hfresh]
    simpa using storeGet_storeSet_self _ _ _

/-- Witness for C3 (amended): on an empty store, one admitted request to
`/api/countries` leaves the shared two-pass counter at 2. -/
theorem C3_amended_two_tier_keys_witness :
    storeGet (handle_countries (some "9.9.9.9") 0 []).2
        (rateKey (clientIp (some "9.9.9.9")) "/api/countries" 60) =
      some ⟨2, 0 + 60⟩ :=
  (C3_amended_two_tier_keys (some "9.9.9.9") 0 []).2.2.2 (by decide)

/-! ### Claim C4: key identity — decimal representation facts -/

theorem decDigits_of_lt (n : Nat) (h : n < 10) :
    decDigits n = [Nat.digitChar n] := by
  rw [decDigits]
  simp [h]

theorem decDigits_of_ge (n : Nat) (h : ¬ n < 10) :
    decDigits n = decDigits (n / 10) ++ [Nat.digitChar (n % 10)] := by
  rw [decDigits]
  simp [h]

theorem decDigits_ne_nil (n : Nat) : decDigits n ≠ [] := by
  by_cases h : n < 10
  · rw [decDigits_of_lt n h]; simp
  · rw [decDigits_of_ge n h]; simp

/-- `Nat.toDigitsCore` (the engine of `Nat.repr`) computes `decDigits`,
given enough fuel. -/
theorem toDigitsCore_eq_decDigits :
    ∀ (fuel n : Nat) (acc : List Char), n < 10 ^ fuel → 0 < fuel →
      Nat.toDigitsCore 10 fuel n acc = decDigits n ++ acc := by
  intro fuel
  induction fuel with
  | zero => intro n acc _ h0; exact absurd h0 (by decide)
  | succ fuel ih =>
    intro n acc hlt _
    by_cases hdiv : n / 10 = 0
    · have hn : n < 10 := by omega
      simp only [Nat.toDigitsCore, hdiv, if_true]
      rw [decDigits_of_lt n hn, Nat.mod_eq_of_lt hn]
      simp
    · have hge : ¬ n < 10 := by omega
      have hfuel : 0 < fuel := by
        rcases Nat.eq_zero_or_pos fuel with h0 | h0
        · subst h0
          simp only [pow_succ, pow_zero, one_mul] at hlt
          omega
        · exact h0
      have hlt' : n / 10 < 10 ^ fuel := by
        rw [Nat.div_lt_iff_lt_mul (by norm_num : (0:Nat) < 10)]
        calc n < 10 ^ (fuel + 1) := hlt
        _ = 10 ^ fuel * 10 := by rw [pow_succ]
      simp only [Nat.toDigitsCore, hdiv, if_false]
      rw [ih (n / 10) (Nat.digitChar (n % 10) :: acc) hlt' hfuel]
      rw [decDigits_of_ge n hge]
      simp

/-- The characters of `Nat.repr n` are exactly `decDigits n`. -/
theorem repr_data_eq_decDigits (n : Nat) : (Nat.repr n).data = decDigits n := by
  have hpow : n < 10 ^ (n + 1) := by
    calc n < 2 ^ n := Nat.lt_two_pow n
    _ ≤ 2 ^ (n + 1) := Nat.pow_le_pow_right (by norm_num) (Nat.le_succ n)
    _ ≤ 10 ^ (n + 1) := Nat.pow_le_pow_left (by norm_num) (n + 1)
  show (Nat.toDigits 10 n).asString.data = decDigits n
  rw [Nat.toDigits, toDigitsCore_eq_decDigits (n + 1) n [] hpow (Nat.succ_pos n)]
  simp [List.asString]

/-- `Nat.digitChar` is injective on single digits. -/
theorem digitChar_inj_of_lt (a b : Nat) (ha : a < 10) (hb : b < 10)
    (h : Nat.digitChar a = Nat.digitChar b) : a = b := by
  have key : ∀ x y : Fin 10, Nat.digitChar x.val = Nat.digitChar y.val → x = y := by
    decide
  exact congrArg Fin.val (key ⟨a, ha⟩ ⟨b, hb⟩ h)

/-- The decimal digit list determines the number. -/
theorem decDigits_inj : ∀ m n : Nat, decDigits m = decDigits n → m = n := by
  intro m
  induction m using Nat.strong_induction_on with
  | _ m ih =>
    intro n h
    by_cases hm : m < 10 <;> by_cases hn : n < 10
    · rw [decDigits_of_lt m hm, decDigits_of_lt n hn] at h
      exact digitChar_inj_of_lt m n hm hn (by simpa using h)
    · rw [decDigits_of_lt m hm, decDigits_of_ge n hn] at h
      have hlen := congrArg List.length h
      simp only [List.length_append, List.length_cons, List.length_nil] at hlen
      have h0 : (decDigits (n / 10)).length = 0 := by omega
      exact absurd (List.length_eq_zero.mp h0) (decDigits_ne_nil _)
    · rw [decDigits_of_ge m hm, decDigits_of_lt n hn] at h
      have hlen := congrArg List.length h
      simp only [List.length_append, List.length_cons, List.length_nil] at hlen
      have h0 : (decDigits (m / 10)).length = 0 := by omega
      exact absurd (List.length_eq_zero.mp h0) (decDigits_ne_nil _)
    · rw [decDigits_of_ge m hm, decDigits_of_ge n hn] at h
      obtain ⟨hdivs, hmods⟩ := List.append_inj' h (by simp)
      have hdiv : m / 10 = n / 10 :=
        ih (m / 10) (Nat.div_lt_self (by omega) (by norm_num)) (n / 10) hdivs
      have hmod : m % 10 = n % 10 :=
        digitChar_inj_of_lt _ _ (Nat.mod_lt _ (by norm_num))
          (Nat.mod_lt _ (by norm_num)) (by simpa using hmods)
      omega

/-- `Nat.repr` (hence `toString` on `Nat`) is injective. -/
theorem nat_repr_inj (m n : Nat) (h : Nat.repr m = Nat.repr n) : m = n := by
  apply decDigits_inj
  rw [← repr_data_eq_decDigits, ← repr_data_eq_decDigits, h]

/-- Splitting at the first colon is unambiguous when the prefixes are
colon-free. -/
theorem colon_split :
    ∀ (a₁ a₂ b₁ b₂ : List Char), (∀ c ∈ a₁, c ≠ ':') → (∀ c ∈ a₂, c ≠ ':') →
      a₁ ++ ':' :: b₁ = a₂ ++ ':' :: b₂ → a₁ = a₂ ∧ b₁ = b₂ := by
  intro a₁
  induction a₁ with
  | nil =>
    intro a₂ b₁ b₂ _ h₂ heq
    cases a₂ with
    | nil => simpa using heq
    | cons c a₂ =>
      rw [List.nil_append, List.cons_append] at heq
      injection heq with h1 _
      exact absurd h1.symm (h₂ c (List.mem_cons_self c a₂))
  | cons c a₁ ih =>
    intro a₂ b₁ b₂ h₁ h₂ heq
    cases a₂ with
    | nil =>
      rw [List.nil_append, List.cons_append] at heq
      injection heq with h1 _
      exact absurd h1 (h₁ c (List.mem_cons_self c a₁))
    | cons c' a₂ =>
      rw [List.cons_append, List.cons_append] at heq
      injection heq with h1 h2
      obtain ⟨ha, hb⟩ := ih a₂ b₁ b₂
        (fun x hx => h₁ x (List.mem_cons_of_mem c hx))
        (fun x hx => h₂ x (List.mem_cons_of_mem c' hx)) h2
      subst h1
      exact ⟨by rw [ha], hb⟩

/-- Counterexample to claim C4 as stated: the composite key is built by
joining the three components with `":"`, which is not injective once a
component itself contains a colon — two requests with different client
identities (and different route paths) can map to the very same key. -/
theorem C4_counterexample :
    rateKey "a" "/b:/c" 1 = rateKey "a:/b" "/c" 1 ∧
    ("a" : String) ≠ "a:/b" ∧ ("/b:/c" : String) ≠ "/c" := by
  refine ⟨?_, by decide, by decide⟩
  decide

/-- Claim C4 (amended): provided the client identity and the route path
contain no colon character (true of IPv4-derived identities and of this
API's route paths), two requests map to the same composite key if and only
if their client identity, route path and window length are all equal. -/
theorem C4_amended_key_injectivity (ip₁ path₁ ip₂ path₂ : String) (w₁ w₂ : Nat)
    (hip₁ : ':' ∉ ip₁.data) (hip₂ : ':' ∉ ip₂.data)
    (hpath₁ : ':' ∉ path₁.data) (hpath₂ : ':' ∉ path₂.data) :
    rateKey ip₁ path₁ w₁ = rateKey ip₂ path₂ w₂ ↔
      ip₁ = ip₂ ∧ path₁ = path₂ ∧ w₁ = w₂ := by
  constructor
  · intro h
    have hd := congrArg String.data h
    have hcolon : (":" : String).data = [':'] := rfl
    simp only [rateKey, String.data_append, hcolon, List.append_assoc,
      List.singleton_append] at hd
    obtain ⟨hip, hrest⟩ := colon_split ip₁.data ip₂.data _ _
      (fun c hc hceq => hip₁ (hceq ▸ hc)) (fun c hc hceq => hip₂ (hceq ▸ hc)) hd
    obtain ⟨hpath, hw⟩ := colon_split path₁.data path₂.data _ _
      (fun c hc hceq => hpath₁ (hceq ▸ hc)) (fun c hc hceq => hpath₂ (hceq ▸ hc))
      hrest
    exact ⟨String.ext hip, String.ext hpath, nat_repr_inj w₁ w₂ (String.ext hw)⟩
  · rintro ⟨rfl, rfl, rfl⟩
    rfl

/-- Witness for C4 (amended): colon-free components — same client, different
paths — never share a key. -/
theorem C4_amended_key_injectivity_witness :
    rateKey "1.2.3.4" "/a" 60 ≠ rateKey "1.2.3.4" "/b" 60 := by
  intro h
  have hcomp := (C4_amended_key_injectivity "1.2.3.4" "/a" "1.2.3.4" "/b" 60 60
    (by decide) (by decide) (by decide) (by decide)).mp h
  exact absurd hcomp.2.1 (by decide)

/-! ### Claim C10: the banners endpoint's country guard -/

/-- Claim C10: for every admitted request to the banners endpoint, if the
uppercased country parameter is not a supported code (the supported codes
being exactly "NL", "AE", "BH"), the endpoint fails with HTTP 400
"Unsupported country", and the outcome is independent of whatever the
document store would have returned — no read is consulted.  Matching is on
the uppercased parameter, and `"nl"` uppercases into the supported set, so
lowercase codes are accepted into the success branch. -/
theorem C10_banners_country_guard (client : Option String) (country : String)
    (now : ℚ) (store : RateStore) (fetched fetched' : List Doc)
    (hpass : (check_rate_limit client "/api/banners" 60 60 now store).1 = true) :
    (∀ code, countriesHas code = true ↔
      code = "NL" ∨ code = "AE" ∨ code = "BH") ∧
    (countriesHas (upper country) = false →
      get_banners client country now store fetched =
        (Response.failure 400 [("detail", JVal.str "Unsupported country")],
          (check_rate_limit client "/api/banners" 60 60 now store).2) ∧
      get_banners client country now store fetched =
        get_banners client country now store fetched') ∧
    (countriesHas (upper country) = true →
      (get_banners client country now store fetched).1 =
        Response.success (processBanners fetched)) ∧
    countriesHas (upper "nl") = true := by
  refine ⟨?_, ?_, ?_, by decide⟩
  · intro code
    constructor
    · intro h
      simp [countriesHas, COUNTRIES] at h
      rcases h with h | h | h <;> subst h <;> simp
    · intro h
      rcases h with h | h | h <;> subst h <;> decide
  · intro hbad
    constructor
    · simp [get_banners, hpass, hbad]
    · simp [get_banners, hpass, hbad]
  · intro hgood
    simp [get_banners, hpass, hgood]

/-- Witness for C10: an admitted request with country `"xx"` is refused with
the 400 response, untouched by what the store holds, while `"nl"` is
accepted. -/
theorem C10_banners_country_guard_witness :
    get_banners (some "1.2.3.4") "xx" 0 [] [[("title", JVal.str "t")]] =
      (Response.failure 400 [("detail", JVal.str "Unsupported country")],
        (check_rate_limit (some "1.2.3.4") "/api/banners" 60 60 0 []).2) ∧
    get_banners (some "1.2.3.4") "xx" 0 [] [[("title", JVal.str "t")]] =
      get_banners (some "1.2.3.4") "xx" 0 [] [] :=
  (C10_banners_country_guard (some "1.2.3.4") "xx" 0 []
    [[("title", JVal.str "t")]] [] (by decide)).2.1 (by decide)

end BirthdayDeals
